import Mathlib

/-!
Verification of the bird visit tracker backend.

The definitions below are a shallow embedding of the Python sources:

* `src/backend/state_machine.py` — the visit session engine
  (`VisitStateMachine.process_detection` and its helper methods);
* `src/backend/bird_detector.py` — the detection loop (`BirdDetector.run`),
  in particular how a state-machine result is handled
  (`_handle_state_action` appends a capture to the visit whenever the
  result carries a true capture flag) and how an adapter exception on a
  tick is caught by the loop's outer handler;
* `src/backend/species_analyzer.py` — the analysis worker
  (`SpeciesAnalyzer.analyze_visit`, `_select_best_capture`,
  `_identify_species`, `_mark_visit_completed`, `_mark_visit_failed`).

Wall-clock times are modelled as integers (seconds); elapsed-time checks
mirror the Python `(now - start).total_seconds() >= threshold` comparisons.
Visit identifiers (uuid4 in Python) are modelled by a fresh counter.
-/

namespace Bird

/-- The four states of `VisitState` in state_machine.py. -/
inductive VisitState where
  | idle
  | birdPresent
  | birdAbsent
  | visitComplete
deriving DecidableEq

/-- Lifecycle status strings a Visit row can carry
(`"active"`, `"analyzing"`, `"completed"`, `"failed"`). -/
inductive VisitStatus where
  | active
  | analyzing
  | completed
  | failed
deriving DecidableEq

/-- The `Visit` object of state_machine.py.  The `captures` list is
modelled by its length (`len(visit.captures)` is all the engine reads);
the uuid is modelled by a natural-number identifier. -/
structure Visit where
  id : ℕ
  startTime : ℤ
  endTime : Option ℤ
  captures : ℕ
  status : VisitStatus
deriving DecidableEq

/-- The engine-relevant fields of `Config` (config.py). -/
structure SMConfig where
  absenceGracePeriodSec : ℤ
  visitCooldownSec : ℤ
  maxCapturesPerVisit : ℕ
  captureIntervalSec : ℤ
deriving DecidableEq

/-- The mutable fields of `VisitStateMachine`. -/
structure SM where
  state : VisitState
  currentVisit : Option Visit
  absenceStartTime : Option ℤ
  cooldownStartTime : Option ℤ
  lastCaptureTime : Option ℤ
  nextId : ℕ
deriving DecidableEq

/-- The state of a freshly constructed `VisitStateMachine`. -/
def SM.init : SM :=
  { state := .idle
    currentVisit := none
    absenceStartTime := none
    cooldownStartTime := none
    lastCaptureTime := none
    nextId := 0 }

/-- The action dictionary returned by `process_detection`: its `action`
key is one of `start_visit`, `capture`, `complete_visit`, and it carries
the visit object. -/
inductive SMAction where
  | startVisit (v : Visit)
  | capture (v : Visit)
  | completeVisit (v : Visit)
deriving DecidableEq

/-- The `capture` flag of the action dictionary (`True` for
`start_visit` and `capture`, `False` for `complete_visit`). -/
def SMAction.captureFlag : SMAction → Bool
  | .startVisit _ => true
  | .capture _ => true
  | .completeVisit _ => false

/-- Whether an action is a `start_visit` instruction. -/
def SMAction.isStart : SMAction → Bool
  | .startVisit _ => true
  | _ => false

/-- Whether an action is a `complete_visit` instruction. -/
def SMAction.isComplete : SMAction → Bool
  | .completeVisit _ => true
  | _ => false

/-- The visit carried by an action dictionary. -/
def SMAction.visit : SMAction → Visit
  | .startVisit v => v
  | .capture v => v
  | .completeVisit v => v

/-- `VisitStateMachine._cooldown_elapsed`. -/
def cooldownElapsed (cfg : SMConfig) (sm : SM) (now : ℤ) : Bool :=
  match sm.cooldownStartTime with
  | none => true
  | some t => decide (cfg.visitCooldownSec ≤ now - t)

/-- `VisitStateMachine._should_capture`. -/
def shouldCapture (cfg : SMConfig) (sm : SM) (now : ℤ) : Bool :=
  match sm.lastCaptureTime with
  | none => true
  | some t => decide (cfg.captureIntervalSec ≤ now - t)

/-- `VisitStateMachine._absence_timeout_elapsed`. -/
def absenceTimeoutElapsed (cfg : SMConfig) (sm : SM) (now : ℤ) : Bool :=
  match sm.absenceStartTime with
  | none => false
  | some t => decide (cfg.absenceGracePeriodSec ≤ now - t)

/-- `VisitStateMachine._start_visit`: a fresh active visit is installed
as the current visit, the state moves to `BIRD_PRESENT`, and the
last-capture time is set to `now`. -/
def startVisitStep (sm : SM) (now : ℤ) : SM × Option SMAction :=
  let v : Visit :=
    { id := sm.nextId, startTime := now, endTime := none
      captures := 0, status := .active }
  ({ sm with
      currentVisit := some v
      state := .birdPresent
      lastCaptureTime := some now
      nextId := sm.nextId + 1 },
   some (.startVisit v))

/-- `VisitStateMachine._capture_photo`.  The Python method dereferences
`self.current_visit` with no null check; the outer `none` models the
`AttributeError` that a missing visit would raise.  At the capture cap it
returns `None` without touching the machine. -/
def capturePhotoStep (cfg : SMConfig) (sm : SM) (now : ℤ) :
    Option (SM × Option SMAction) :=
  match sm.currentVisit with
  | none => none
  | some v =>
      if cfg.maxCapturesPerVisit ≤ v.captures then some (sm, none)
      else some ({ sm with lastCaptureTime := some now }, some (.capture v))

/-- `VisitStateMachine._enter_absence`. -/
def enterAbsence (sm : SM) (now : ℤ) : SM :=
  { sm with state := .birdAbsent, absenceStartTime := some now }

/-- `VisitStateMachine._resume_presence`. -/
def resumePresence (sm : SM) : SM :=
  { sm with state := .birdPresent, absenceStartTime := none }

/-- `VisitStateMachine._complete_visit`: stamps the end time, moves the
visit to `analyzing`, hands it out in the action, and empties the
current-visit slot.  The outer `none` again models the unchecked
dereference of a missing current visit. -/
def completeVisitStep (sm : SM) (now : ℤ) : Option (SM × Option SMAction) :=
  match sm.currentVisit with
  | none => none
  | some v =>
      let v2 := { v with endTime := some now, status := .analyzing }
      some ({ sm with
                state := .visitComplete
                cooldownStartTime := some now
                absenceStartTime := none
                currentVisit := none },
            some (.completeVisit v2))

/-- `VisitStateMachine.process_detection`, the engine transition
function: given the detected-this-tick flag and the tick time it returns
the updated machine and the optional side-effect instruction (`none`
models a raised exception, which the Python code can only produce by
dereferencing a missing current visit). -/
def processDetection (cfg : SMConfig) (sm : SM) (birdDetected : Bool)
    (now : ℤ) : Option (SM × Option SMAction) :=
  match sm.state with
  | .idle =>
      if birdDetected && cooldownElapsed cfg sm now then
        some (startVisitStep sm now)
      else
        some (sm, none)
  | .birdPresent =>
      if birdDetected then
        if shouldCapture cfg sm now then capturePhotoStep cfg sm now
        else some (sm, none)
      else
        some (enterAbsence sm now, none)
  | .birdAbsent =>
      if birdDetected then some (resumePresence sm, none)
      else if absenceTimeoutElapsed cfg sm now then completeVisitStep sm now
      else some (sm, none)
  | .visitComplete =>
      if cooldownElapsed cfg sm now then
        let sm2 := { sm with state := .idle }
        if birdDetected then some (startVisitStep sm2 now)
        else some (sm2, none)
      else
        some (sm, none)

/-- `BirdDetector._capture_and_store` appends the new capture to
`visit.captures`; the visit object is the engine's current visit, so the
append is visible through the current-visit slot. -/
def appendCapture (sm : SM) : SM :=
  { sm with
      currentVisit := sm.currentVisit.map
        (fun v => { v with captures := v.captures + 1 }) }

/-- `BirdDetector._handle_state_action` applied to one result: whenever
the result's capture flag is true, `_capture_and_store` runs and the
capture is appended to the visit (the engine's current visit). -/
def applyCaptureEffect (p : SM × Option SMAction) : SM × Option SMAction :=
  match p.2 with
  | some a => if a.captureFlag then (appendCapture p.1, p.2) else p
  | none => p

/-- One tick of the detection loop body after `_detect_birds` returned:
`process_detection` followed by `_handle_state_action`. -/
def detectorStep (cfg : SMConfig) (sm : SM) (birdDetected : Bool)
    (now : ℤ) : Option (SM × Option SMAction) :=
  (processDetection cfg sm birdDetected now).map applyCaptureEffect

/-- One tick of `BirdDetector.run` including the detector adapter call:
if `_detect_birds` raises, the loop's outer handler catches the
exception, logs it and moves on — the state machine is not invoked on
that tick. -/
def loopTick (cfg : SMConfig) (sm : SM) (input : Except Unit Bool)
    (now : ℤ) : Option (SM × Option SMAction) :=
  match input with
  | .error _ => some (sm, none)
  | .ok b => detectorStep cfg sm b now

/-- Run the detection loop over a list of (detected, time) ticks,
collecting the emitted instructions with their tick times. -/
def runTicks (cfg : SMConfig) : SM → List (Bool × ℤ) →
    Option (SM × List (ℤ × SMAction))
  | sm, [] => some (sm, [])
  | sm, (b, t) :: rest =>
      match detectorStep cfg sm b t with
      | none => none
      | some (sm2, act) =>
          match runTicks cfg sm2 rest with
          | none => none
          | some (smF, tr) =>
              some (smF, (match act with
                          | some a => [(t, a)]
                          | none => []) ++ tr)

/-- Machine states reachable from the freshly constructed engine by any
sequence of successful loop ticks. -/
inductive Reachable (cfg : SMConfig) : SM → Prop where
  | init : Reachable cfg SM.init
  | step {sm : SM} {b : Bool} {now : ℤ} {sm2 : SM} {act : Option SMAction} :
      Reachable cfg sm → detectorStep cfg sm b now = some (sm2, act) →
      Reachable cfg sm2

/-- The Scenario A configuration: grace period 5 s, cooldown 15 s,
max captures 5, capture interval 3 s. -/
def cfgA : SMConfig :=
  { absenceGracePeriodSec := 5
    visitCooldownSec := 15
    maxCapturesPerVisit := 5
    captureIntervalSec := 3 }

/-- Scenario A ticks: detected at t = 0..10, not detected from t = 11
(run through t = 20). -/
def ticksA : List (Bool × ℤ) :=
  [(true, 0), (true, 1), (true, 2), (true, 3), (true, 4), (true, 5),
   (true, 6), (true, 7), (true, 8), (true, 9), (true, 10),
   (false, 11), (false, 12), (false, 13), (false, 14), (false, 15),
   (false, 16), (false, 17), (false, 18), (false, 19), (false, 20)]

/-- Slot invariant of the engine: in the `IDLE` and `VISIT_COMPLETE`
states the current-visit slot is empty; in the `BIRD_PRESENT` and
`BIRD_ABSENT` states it holds exactly one visit, whose status is still
`active`. -/
def SlotInv (sm : SM) : Prop :=
  ((sm.state = .idle ∨ sm.state = .visitComplete) → sm.currentVisit = none) ∧
  ((sm.state = .birdPresent ∨ sm.state = .birdAbsent) →
    ∃ v, sm.currentVisit = some v ∧ v.status = .active)

/-- Capture-count invariant: the current visit never holds more than the
configured maximum number of captures. -/
def CountInv (cfg : SMConfig) (sm : SM) : Prop :=
  ∀ v, sm.currentVisit = some v → v.captures ≤ cfg.maxCapturesPerVisit

lemma applyCaptureEffect_snd (p : SM × Option SMAction) :
    (applyCaptureEffect p).2 = p.2 := by
  unfold applyCaptureEffect
  rcases p with ⟨sm, _ | a⟩
  · rfl
  · by_cases hf : a.captureFlag = true <;> simp [hf]

lemma detectorStep_cases {cfg : SMConfig} {sm : SM} {b : Bool} {now : ℤ}
    {p : SM × Option SMAction}
    (h : detectorStep cfg sm b now = some p) :
    ∃ q, processDetection cfg sm b now = some q ∧ p = applyCaptureEffect q := by
  unfold detectorStep at h
  cases hq : processDetection cfg sm b now with
  | none => rw [hq] at h; simp at h
  | some q =>
      rw [hq] at h
      simp only [Option.map_some'] at h
      exact ⟨q, rfl, (Option.some.inj h).symm⟩

/-- Exhaustive characterization of the results of
`process_detection`. -/
lemma processDetection_cases {cfg : SMConfig} {sm : SM} {b : Bool} {now : ℤ}
    {p : SM × Option SMAction}
    (h : processDetection cfg sm b now = some p) :
    p = (sm, none) ∨
    (p = ({ sm with state := .idle }, none) ∧ sm.state = .visitComplete) ∨
    (p = (enterAbsence sm now, none) ∧ sm.state = .birdPresent) ∨
    (p = (resumePresence sm, none) ∧ sm.state = .birdAbsent) ∨
    (p = startVisitStep sm now ∧
      (sm.state = .idle ∨ sm.state = .visitComplete)) ∨
    (∃ v, sm.currentVisit = some v ∧
      v.captures < cfg.maxCapturesPerVisit ∧
      p = ({ sm with lastCaptureTime := some now }, some (.capture v)) ∧
      sm.state = .birdPresent) ∨
    (∃ v, sm.currentVisit = some v ∧
      p = ({ sm with
              state := .visitComplete
              cooldownStartTime := some now
              absenceStartTime := none
              currentVisit := none },
           some (.completeVisit
             { v with endTime := some now, status := .analyzing })) ∧
      sm.state = .birdAbsent) := by
  unfold processDetection at h
  cases hs : sm.state <;> rw [hs] at h
  case idle =>
    by_cases hb : (b && cooldownElapsed cfg sm now) = true
    · rw [if_pos hb] at h
      exact Or.inr (Or.inr (Or.inr (Or.inr (Or.inl
        ⟨(Option.some.inj h).symm, Or.inl rfl⟩))))
    · rw [if_neg hb] at h
      exact Or.inl (Option.some.inj h).symm
  case birdPresent =>
    cases b with
    | false =>
        simp only [Bool.false_eq_true, if_false] at h
        exact Or.inr (Or.inr (Or.inl ⟨(Option.some.inj h).symm, rfl⟩))
    | true =>
        simp only [if_true] at h
        by_cases hc : shouldCapture cfg sm now = true
        · rw [if_pos hc] at h
          unfold capturePhotoStep at h
          cases hv : sm.currentVisit with
          | none => rw [hv] at h; simp at h
          | some v =>
              rw [hv] at h
              dsimp only at h
              rw [hs] at h
              by_cases hcap : cfg.maxCapturesPerVisit ≤ v.captures
              · rw [if_pos hcap] at h
                exact Or.inl (Option.some.inj h).symm
              · rw [if_neg hcap] at h
                exact Or.inr (Or.inr (Or.inr (Or.inr (Or.inr (Or.inl
                  ⟨v, rfl, Nat.lt_of_not_le hcap,
                    (Option.some.inj h).symm, rfl⟩)))))
        · rw [if_neg hc] at h
          exact Or.inl (Option.some.inj h).symm
  case birdAbsent =>
    cases b with
    | true =>
        simp only [if_true] at h
        exact Or.inr (Or.inr (Or.inr (Or.inl ⟨(Option.some.inj h).symm, rfl⟩)))
    | false =>
        simp only [Bool.false_eq_true, if_false] at h
        by_cases ht : absenceTimeoutElapsed cfg sm now = true
        · rw [if_pos ht] at h
          unfold completeVisitStep at h
          cases hv : sm.currentVisit with
          | none => rw [hv] at h; simp at h
          | some v =>
              rw [hv] at h
              dsimp only at h
              exact Or.inr (Or.inr (Or.inr (Or.inr (Or.inr (Or.inr
                ⟨v, rfl, (Option.some.inj h).symm, rfl⟩)))))
        · rw [if_neg ht] at h
          exact Or.inl (Option.some.inj h).symm
  case visitComplete =>
    by_cases hcd : cooldownElapsed cfg sm now = true
    · rw [if_pos hcd] at h
      cases b with
      | true =>
          simp only [if_true] at h
          exact Or.inr (Or.inr (Or.inr (Or.inr (Or.inl
            ⟨(Option.some.inj h).symm, Or.inr rfl⟩))))
      | false =>
          simp only [Bool.false_eq_true, if_false] at h
          exact Or.inr (Or.inl ⟨(Option.some.inj h).symm, rfl⟩)
    · rw [if_neg hcd] at h
      exact Or.inl (Option.some.inj h).symm

lemma appendCapture_state (sm : SM) : (appendCapture sm).state = sm.state := rfl

lemma applyCaptureEffect_fst (q : SM × Option SMAction) :
    (applyCaptureEffect q).1 = q.1 ∨
    (applyCaptureEffect q).1 = appendCapture q.1 := by
  unfold applyCaptureEffect
  rcases q with ⟨qs, _ | a⟩
  · exact Or.inl rfl
  · by_cases hf : a.captureFlag = true <;> simp [hf]

lemma slotInv_init : SlotInv SM.init := by
  constructor
  · intro _; rfl
  · rintro (hx | hx) <;> exact VisitState.noConfusion hx

lemma slotInv_append {sm : SM} (h : SlotInv sm) : SlotInv (appendCapture sm) := by
  obtain ⟨h1, h2⟩ := h
  constructor
  · intro hst
    have hv : sm.currentVisit = none := h1 hst
    show sm.currentVisit.map _ = none
    rw [hv]; rfl
  · intro hst
    obtain ⟨v, hv, hstat⟩ := h2 hst
    refine ⟨{ v with captures := v.captures + 1 }, ?_, hstat⟩
    show sm.currentVisit.map _ = _
    rw [hv]; rfl

lemma slotInv_step {cfg : SMConfig} {sm : SM} {b : Bool} {now : ℤ}
    {p : SM × Option SMAction} (hInv : SlotInv sm)
    (h : detectorStep cfg sm b now = some p) : SlotInv p.1 := by
  obtain ⟨q, hq, hp⟩ := detectorStep_cases h
  have hq1 : SlotInv q.1 := by
    rcases processDetection_cases hq with h1 | ⟨h1, hst⟩ | ⟨h1, hst⟩ |
      ⟨h1, hst⟩ | ⟨h1, hst⟩ | ⟨v, hv, hlt, h1, hst⟩ | ⟨v, hv, h1, hst⟩
    · rw [h1]; exact hInv
    · rw [h1]
      exact ⟨fun _ => hInv.1 (Or.inr hst),
             fun hx => by rcases hx with hx | hx <;> exact VisitState.noConfusion hx⟩
    · rw [h1]
      exact ⟨fun hx => by rcases hx with hx | hx <;> exact VisitState.noConfusion hx,
             fun _ => hInv.2 (Or.inl hst)⟩
    · rw [h1]
      exact ⟨fun hx => by rcases hx with hx | hx <;> exact VisitState.noConfusion hx,
             fun _ => hInv.2 (Or.inr hst)⟩
    · rw [h1]
      exact ⟨fun hx => by rcases hx with hx | hx <;> exact VisitState.noConfusion hx,
             fun _ => ⟨_, rfl, rfl⟩⟩
    · rw [h1]
      constructor
      · rintro (hx | hx) <;>
          exact absurd (hst.symm.trans hx) (by decide)
      · intro _
        obtain ⟨w, hw, hstat⟩ := hInv.2 (Or.inl hst)
        exact ⟨w, hw, hstat⟩
    · rw [h1]
      exact ⟨fun _ => rfl,
             fun hx => by rcases hx with hx | hx <;> exact VisitState.noConfusion hx⟩
  rcases applyCaptureEffect_fst q with he | he <;> rw [hp, he]
  · exact hq1
  · exact slotInv_append hq1

lemma reachable_slotInv {cfg : SMConfig} {sm : SM}
    (h : Reachable cfg sm) : SlotInv sm := by
  induction h with
  | init => exact slotInv_init
  | step _ hstep ih => exact slotInv_step ih hstep

lemma countInv_step {cfg : SMConfig} {sm : SM} {b : Bool} {now : ℤ}
    {p : SM × Option SMAction} (hmax : 1 ≤ cfg.maxCapturesPerVisit)
    (hInv : CountInv cfg sm)
    (h : detectorStep cfg sm b now = some p) : CountInv cfg p.1 := by
  obtain ⟨q, hq, hp⟩ := detectorStep_cases h
  rcases processDetection_cases hq with h1 | ⟨h1, _⟩ | ⟨h1, _⟩ |
    ⟨h1, _⟩ | ⟨h1, _⟩ | ⟨v, hv, hlt, h1, _⟩ | ⟨v, hv, h1, _⟩
  · rw [hp, h1]; exact hInv
  · rw [hp, h1]; intro w hw; exact hInv w hw
  · rw [hp, h1]; intro w hw; exact hInv w hw
  · rw [hp, h1]; intro w hw; exact hInv w hw
  · rw [hp, h1]
    intro w hw
    have hw2 : some (⟨sm.nextId, now, none, 0 + 1, .active⟩ : Visit) = some w := hw
    injection hw2 with he
    rw [← he]
    exact hmax
  · rw [hp, h1]
    intro w hw
    have hw2 : sm.currentVisit.map
        (fun u => { u with captures := u.captures + 1 }) = some w := hw
    rw [hv] at hw2
    simp only [Option.map_some', Option.some.injEq] at hw2
    rw [← hw2]
    exact hlt
  · rw [hp, h1]
    intro w hw
    simp only [applyCaptureEffect, SMAction.captureFlag] at hw
    exact Option.noConfusion hw

lemma reachable_countInv {cfg : SMConfig} {sm : SM}
    (hmax : 1 ≤ cfg.maxCapturesPerVisit) (h : Reachable cfg sm) :
    CountInv cfg sm := by
  induction h with
  | init => intro v hv; exact Option.noConfusion hv
  | step _ hstep ih => exact countInv_step hmax ih hstep

lemma processDetection_total (cfg : SMConfig) {sm : SM} (hInv : SlotInv sm)
    (b : Bool) (now : ℤ) :
    (processDetection cfg sm b now).isSome = true := by
  unfold processDetection
  cases hs : sm.state
  case idle =>
    by_cases hb : (b && cooldownElapsed cfg sm now) = true <;> simp [hb]
  case birdPresent =>
    cases b
    · simp
    · by_cases hc : shouldCapture cfg sm now = true
      · obtain ⟨v, hv, _⟩ := hInv.2 (Or.inl hs)
        unfold capturePhotoStep
        rw [hv]
        by_cases hcap : cfg.maxCapturesPerVisit ≤ v.captures <;>
          simp [hc, hcap]
      · simp [hc]
  case birdAbsent =>
    cases b
    · by_cases ht : absenceTimeoutElapsed cfg sm now = true
      · obtain ⟨v, hv, _⟩ := hInv.2 (Or.inr hs)
        unfold completeVisitStep
        rw [hv]
        simp [ht]
      · simp [ht]
    · simp
  case visitComplete =>
    by_cases hcd : cooldownElapsed cfg sm now = true <;> cases b <;>
      simp [hcd]

lemma detectorStep_total (cfg : SMConfig) {sm : SM} (hInv : SlotInv sm)
    (b : Bool) (now : ℤ) :
    (detectorStep cfg sm b now).isSome = true := by
  unfold detectorStep
  rw [Option.isSome_map']
  exact processDetection_total cfg hInv b now

lemma startAction_slot_empty {cfg : SMConfig} {sm : SM} {b : Bool} {now : ℤ}
    {sm2 : SM} {v : Visit} (hInv : SlotInv sm)
    (h : detectorStep cfg sm b now = some (sm2, some (.startVisit v))) :
    sm.currentVisit = none := by
  obtain ⟨q, hq, hp⟩ := detectorStep_cases h
  have hact : q.2 = some (.startVisit v) := by
    have h2 := applyCaptureEffect_snd q
    rw [← hp] at h2
    exact h2.symm
  rcases processDetection_cases hq with h1 | ⟨h1, _⟩ | ⟨h1, _⟩ |
    ⟨h1, _⟩ | ⟨h1, hst⟩ | ⟨w, hw, hlt, h1, _⟩ | ⟨w, hw, h1, _⟩
  · rw [h1] at hact; exact Option.noConfusion hact
  · rw [h1] at hact; exact Option.noConfusion hact
  · rw [h1] at hact; exact Option.noConfusion hact
  · rw [h1] at hact; exact Option.noConfusion hact
  · exact hInv.1 hst
  · rw [h1] at hact; simp at hact
  · rw [h1] at hact; simp at hact

/-- A concrete engine state: the result of one detected tick at t = 0
from the fresh machine under the Scenario A configuration. -/
def sm1 : SM :=
  { state := .birdPresent
    currentVisit := some ⟨0, 0, none, 1, .active⟩
    absenceStartTime := none
    cooldownStartTime := none
    lastCaptureTime := some 0
    nextId := 1 }

lemma reach1 : Reachable cfgA sm1 := by
  have h : detectorStep cfgA SM.init true 0 =
      some (sm1, some (.startVisit ⟨0, 0, none, 0, .active⟩)) := by decide
  exact Reachable.step Reachable.init h

/-- A concrete engine state in the grace period: absent since t = 3 with
an open visit holding two captures. -/
def smB : SM :=
  { state := .birdAbsent
    currentVisit := some ⟨0, 0, none, 2, .active⟩
    absenceStartTime := some 3
    cooldownStartTime := none
    lastCaptureTime := some 0
    nextId := 1 }

/-- A concrete engine state in cooldown: a visit completed at t = 0. -/
def smC : SM :=
  { state := .visitComplete
    currentVisit := none
    absenceStartTime := none
    cooldownStartTime := some 0
    lastCaptureTime := none
    nextId := 1 }

/-- C3: with grace period 5 s, cooldown 15 s, capture interval 3 s, max
captures 5, and ticks detected at t = 0..10 then not detected from
t = 11 on, the engine produces exactly one visit, started at t = 0,
emits capture effects exactly at t = 0, 3, 6, 9, and emits the
complete-visit effect exactly at t = 16. -/
theorem scenario_a_trace :
    ((runTicks cfgA SM.init ticksA).map (fun p =>
      (((p.2.filter (fun q => q.2.isStart)).map
          (fun q => (q.1, q.2.visit.startTime))),
       ((p.2.filter (fun q => q.2.captureFlag)).map Prod.fst),
       ((p.2.filter (fun q => q.2.isComplete)).map Prod.fst)))) =
    some ([(0, 0)], [0, 3, 6, 9], [16]) := by decide

/-- C2: in every reachable engine state the current-visit slot holds at
most one visit, and such a visit is open (status active or analyzing);
moreover a start-visit effect is only produced from a state whose
current-visit slot is empty. -/
theorem single_open_visit (cfg : SMConfig) (sm : SM) (h : Reachable cfg sm) :
    (∀ v, sm.currentVisit = some v →
      (v.status = .active ∨ v.status = .analyzing)) ∧
    (∀ b now sm2 v,
      detectorStep cfg sm b now = some (sm2, some (.startVisit v)) →
      sm.currentVisit = none) := by
  have hInv := reachable_slotInv h
  constructor
  · intro v hv
    cases hs : sm.state
    case idle =>
      rw [hInv.1 (Or.inl hs)] at hv
      exact Option.noConfusion hv
    case visitComplete =>
      rw [hInv.1 (Or.inr hs)] at hv
      exact Option.noConfusion hv
    case birdPresent =>
      obtain ⟨w, hw, hstat⟩ := hInv.2 (Or.inl hs)
      rw [hw] at hv
      cases hv
      exact Or.inl hstat
    case birdAbsent =>
      obtain ⟨w, hw, hstat⟩ := hInv.2 (Or.inr hs)
      rw [hw] at hv
      cases hv
      exact Or.inl hstat
  · intro b now sm2 v hstep
    exact startAction_slot_empty hInv hstep

/-- C2 witness: the invariant instantiated at the concrete reachable
state sm1. -/
theorem single_open_visit_witness :
    (∀ v, sm1.currentVisit = some v →
      (v.status = .active ∨ v.status = .analyzing)) ∧
    (∀ b now sm2 v,
      detectorStep cfgA sm1 b now = some (sm2, some (.startVisit v)) →
      sm1.currentVisit = none) :=
  single_open_visit cfgA sm1 reach1

/-- C10: in every reachable engine state, BIRD_PRESENT and BIRD_ABSENT
imply a non-empty current-visit slot, and consequently one loop tick
from a reachable state never fails on a missing visit (the unchecked
dereferences in the capture and complete-visit branches succeed). -/
theorem present_absent_have_visit (cfg : SMConfig) (sm : SM)
    (h : Reachable cfg sm) :
    ((sm.state = .birdPresent ∨ sm.state = .birdAbsent) →
      sm.currentVisit.isSome = true) ∧
    (∀ b now, (detectorStep cfg sm b now).isSome = true) := by
  have hInv := reachable_slotInv h
  constructor
  · intro hst
    obtain ⟨v, hv, _⟩ := hInv.2 hst
    rw [hv]
    rfl
  · intro b now
    exact detectorStep_total cfg hInv b now

/-- C10 witness: instantiated at the concrete reachable state sm1. -/
theorem present_absent_have_visit_witness :
    ((sm1.state = .birdPresent ∨ sm1.state = .birdAbsent) →
      sm1.currentVisit.isSome = true) ∧
    (∀ b now, (detectorStep cfgA sm1 b now).isSome = true) :=
  present_absent_have_visit cfgA sm1 reach1

/-- C4 (amended): provided the configured maximum is at least 1, a
visit's capture count never exceeds it — neither in the current-visit
slot nor on a visit handed out by a complete-visit effect — and when the
count is already at the maximum and a capture would otherwise fire in
the BIRD_PRESENT state, the tick leaves the machine unchanged and emits
no instruction. -/
theorem capture_cap_amended (cfg : SMConfig) (sm : SM)
    (hmax : 1 ≤ cfg.maxCapturesPerVisit) (h : Reachable cfg sm) :
    (∀ v, sm.currentVisit = some v → v.captures ≤ cfg.maxCapturesPerVisit) ∧
    (∀ b now sm2 v,
      detectorStep cfg sm b now = some (sm2, some (.completeVisit v)) →
      v.captures ≤ cfg.maxCapturesPerVisit) ∧
    (∀ now v, sm.state = .birdPresent → sm.currentVisit = some v →
      cfg.maxCapturesPerVisit ≤ v.captures →
      detectorStep cfg sm true now = some (sm, none)) := by
  have hCnt := reachable_countInv hmax h
  refine ⟨hCnt, ?_, ?_⟩
  · intro b now sm2 v hstep
    obtain ⟨q, hq, hp⟩ := detectorStep_cases hstep
    have hact : q.2 = some (.completeVisit v) := by
      have h2 := applyCaptureEffect_snd q
      rw [← hp] at h2
      exact h2.symm
    rcases processDetection_cases hq with h1 | ⟨h1, _⟩ | ⟨h1, _⟩ |
      ⟨h1, _⟩ | ⟨h1, _⟩ | ⟨w, hw, hlt, h1, _⟩ | ⟨w, hw, h1, _⟩
    · rw [h1] at hact; exact Option.noConfusion hact
    · rw [h1] at hact; exact Option.noConfusion hact
    · rw [h1] at hact; exact Option.noConfusion hact
    · rw [h1] at hact; exact Option.noConfusion hact
    · rw [h1] at hact; simp [startVisitStep] at hact
    · rw [h1] at hact; simp at hact
    · rw [h1] at hact
      simp only [Option.some.injEq] at hact
      injection hact with hact
      have hc := hCnt w hw
      rw [← hact]
      exact hc
  · intro now v hst hv hcap
    unfold detectorStep processDetection
    rw [hst]
    by_cases hc : shouldCapture cfg sm now = true
    · unfold capturePhotoStep
      rw [hv]
      simp [hc, hcap, applyCaptureEffect]
    · simp [hc, applyCaptureEffect]

/-- C4 counterexample to the claim as stated: with configured maximum 0
the unconditional capture taken at visit start leaves the visit with one
capture, exceeding the maximum. -/
theorem capture_cap_counterexample :
    ((detectorStep ⟨5, 15, 0, 3⟩ SM.init true 0).bind
      (fun p => p.1.currentVisit.map Visit.captures)) = some 1 ∧
    (⟨5, 15, 0, 3⟩ : SMConfig).maxCapturesPerVisit = 0 := by decide

/-- C4 witness: the amended bound instantiated at the concrete reachable
state sm1. -/
theorem capture_cap_witness :
    1 ≤ cfgA.maxCapturesPerVisit ∧
    ((∀ v, sm1.currentVisit = some v →
        v.captures ≤ cfgA.maxCapturesPerVisit) ∧
     (∀ b now sm2 v,
       detectorStep cfgA sm1 b now = some (sm2, some (.completeVisit v)) →
       v.captures ≤ cfgA.maxCapturesPerVisit) ∧
     (∀ now v, sm1.state = .birdPresent → sm1.currentVisit = some v →
       cfgA.maxCapturesPerVisit ≤ v.captures →
       detectorStep cfgA sm1 true now = some (sm1, none))) :=
  ⟨by decide, capture_cap_amended cfgA sm1 (by decide) reach1⟩

/-- C5: in the BIRD_ABSENT state with an open visit, a detected tick
before the grace period has elapsed returns the engine to BIRD_PRESENT
with the same visit, clears the absence-start timer, and emits no
effect (in particular no new visit and no complete-visit). -/
theorem grace_return_same_visit (cfg : SMConfig) (sm : SM) (now t0 : ℤ)
    (v : Visit) (hs : sm.state = .birdAbsent) (hv : sm.currentVisit = some v)
    (ht : sm.absenceStartTime = some t0)
    (hlt : now - t0 < cfg.absenceGracePeriodSec) :
    ∃ sm2, detectorStep cfg sm true now = some (sm2, none) ∧
      sm2.currentVisit = some v ∧ sm2.state = .birdPresent ∧
      sm2.absenceStartTime = none := by
  refine ⟨resumePresence sm, ?_, hv, rfl, rfl⟩
  unfold detectorStep processDetection
  rw [hs]
  simp [applyCaptureEffect]

/-- C5 witness: the grace-period return at the concrete state smB
(absent since t = 3, tick at t = 4, grace period 5 s). -/
theorem grace_return_witness :
    (smB.state = .birdAbsent ∧
     smB.currentVisit = some ⟨0, 0, none, 2, .active⟩ ∧
     smB.absenceStartTime = some 3 ∧
     (4 : ℤ) - 3 < cfgA.absenceGracePeriodSec) ∧
    (∃ sm2, detectorStep cfgA smB true 4 = some (sm2, none) ∧
      sm2.currentVisit = some ⟨0, 0, none, 2, .active⟩ ∧
      sm2.state = .birdPresent ∧ sm2.absenceStartTime = none) :=
  ⟨⟨rfl, rfl, rfl, by decide⟩,
   grace_return_same_visit cfgA smB 4 3 ⟨0, 0, none, 2, .active⟩
     rfl rfl rfl (by decide)⟩

/-- C6: in the VISIT_COMPLETE state, once the cooldown has elapsed the
tick moves the engine to IDLE and re-evaluates the same tick: a
detected input produces a start-visit effect (with capture) on that very
tick, starting a new visit at the tick time; if the cooldown has not
elapsed the engine stays unchanged with no effect. -/
theorem complete_cooldown_reevaluate (cfg : SMConfig) (sm : SM) (now : ℤ)
    (h : sm.state = .visitComplete) :
    (cooldownElapsed cfg sm now = true →
      (∃ sm2 v, processDetection cfg sm true now =
          some (sm2, some (.startVisit v)) ∧
        (SMAction.startVisit v).captureFlag = true ∧ v.startTime = now ∧
        sm2.state = .birdPresent ∧ sm2.currentVisit = some v) ∧
      processDetection cfg sm false now =
        some ({ sm with state := .idle }, none)) ∧
    (cooldownElapsed cfg sm now = false →
      ∀ b, processDetection cfg sm b now = some (sm, none)) := by
  constructor
  · intro hcd
    constructor
    · refine ⟨(startVisitStep { sm with state := .idle } now).1,
        ⟨sm.nextId, now, none, 0, .active⟩, ?_, rfl, rfl, rfl, rfl⟩
      unfold processDetection
      rw [h]
      simp [hcd, startVisitStep]
    · unfold processDetection
      rw [h]
      simp [hcd]
  · intro hcd b
    unfold processDetection
    rw [h]
    simp [hcd]

/-- C6 witness: at the concrete state smC (visit completed at t = 0,
cooldown 15 s) the tick at t = 15 re-evaluates as IDLE. -/
theorem complete_cooldown_witness :
    smC.state = .visitComplete ∧
    ((cooldownElapsed cfgA smC 15 = true →
      (∃ sm2 v, processDetection cfgA smC true 15 =
          some (sm2, some (.startVisit v)) ∧
        (SMAction.startVisit v).captureFlag = true ∧ v.startTime = 15 ∧
        sm2.state = .birdPresent ∧ sm2.currentVisit = some v) ∧
      processDetection cfgA smC false 15 =
        some ({ smC with state := .idle }, none)) ∧
    (cooldownElapsed cfgA smC 15 = false →
      ∀ b, processDetection cfgA smC b 15 = some (smC, none))) :=
  ⟨rfl, complete_cooldown_reevaluate cfgA smC 15 rfl⟩

/-- C9 (amended): when the detector adapter raises on a tick, the
detection loop's outer handler catches the exception and skips the tick:
the engine state is unchanged, no instruction is produced, and the loop
does not crash.  (The tick is not processed as a not-detected tick.) -/
theorem detector_error_skips_tick (cfg : SMConfig) (sm : SM) (now : ℤ) :
    loopTick cfg sm (.error ()) now = some (sm, none) := rfl

/-- C9 counterexample to the claim as stated: at the reachable
BIRD_PRESENT state sm1, an adapter error at t = 1 leaves the engine in
BIRD_PRESENT, while a not-detected tick at t = 1 moves it to
BIRD_ABSENT — the resulting states differ. -/
theorem detector_error_not_undetected :
    (loopTick cfgA sm1 (Except.error ()) 1).map (fun p => p.1.state) =
      some VisitState.birdPresent ∧
    (loopTick cfgA sm1 (Except.ok false) 1).map (fun p => p.1.state) =
      some VisitState.birdAbsent ∧
    VisitState.birdPresent ≠ VisitState.birdAbsent := by decide

/-- A detection entry of a capture row (species_analyzer.py reads the
bbox list and the confidence; coordinates and confidences are modelled
as rationals). -/
structure DetRow where
  bbox : List ℚ
  confidence : ℚ
deriving DecidableEq

/-- A row of the captures table as the analyzer reads it: whether the
image_url starts with http, and the stored detection list. -/
structure CaptureRow where
  imageUrlIsHttp : Bool
  detections : List DetRow
deriving DecidableEq

/-- One loop iteration of `_select_best_capture`\'s inner loop: a
detection contributes its bbox area and its confidence only when the
bbox has exactly four entries. -/
def detContribution (d : DetRow) : Option (ℚ × ℚ) :=
  match d.bbox with
  | [x1, y1, x2, y2] => some ((x2 - x1) * (y2 - y1), d.confidence)
  | _ => none

/-- The (total_area, max_confidence) accumulation of
`_select_best_capture` over a capture\'s detections. -/
def detTotals : List DetRow → ℚ × ℚ → ℚ × ℚ
  | [], acc => acc
  | d :: rest, acc =>
      match detContribution d with
      | some (a, c) => detTotals rest (acc.1 + a, max acc.2 c)
      | none => detTotals rest acc

/-- The score `total_area * max_confidence` of a capture. -/
def captureScore (c : CaptureRow) : ℚ :=
  (detTotals c.detections (0, 0)).1 * (detTotals c.detections (0, 0)).2

/-- The outer loop of `_select_best_capture`: best starts at None with
best_score 0, and is replaced only on a strictly greater score. -/
def selectGo : List CaptureRow → Option CaptureRow × ℚ → Option CaptureRow × ℚ
  | [], acc => acc
  | c :: rest, acc =>
      if acc.2 < captureScore c then selectGo rest (some c, captureScore c)
      else selectGo rest acc

/-- `SpeciesAnalyzer._select_best_capture`, including the final
`best_capture or captures[0]` fallback (`none` on an empty list, where
the Python fallback would raise). -/
def selectBestCapture (captures : List CaptureRow) : Option CaptureRow :=
  match (selectGo captures (none, 0)).1 with
  | some b => some b
  | none => captures.head?

/-- The (species, confidence, summary, count) tuple produced by one
successful classifier call after `_parse_openai_response`. -/
structure SpeciesResult where
  species : String
  confidence : String
  summary : String
  count : ℕ
deriving DecidableEq

/-- The terminal database write the worker performs for a visit:
`_mark_visit_completed` or `_mark_visit_failed`. -/
inductive AnalyzerResult where
  | markVisitCompleted (species : String) (confidence : Option String)
      (summary : String) (birdCount : ℕ)
  | markVisitFailed (error : String)
deriving DecidableEq

/-- The status string the terminal write stores on the visit row. -/
def AnalyzerResult.status : AnalyzerResult → String
  | .markVisitCompleted _ _ _ _ => "completed"
  | .markVisitFailed _ => "failed"

/-- The retry loop of `_identify_species`.  The Python loop counts
`attempt` upward through `range(max_retries)`; here `remaining` counts
the iterations left (`max_retries - attempt`), which makes the
recursion structural.  `call` is the classifier call (plus response
parsing) at a given attempt index; an `error` is a raised exception.
The second component is the number of call attempts made.  A non-http
image url returns the placeholder without calling; exhausting the loop
(only possible with max_retries = 0) returns the after-all-retries
fallback. -/
def identifyGo (isHttp : Bool) (call : ℕ → Except String SpeciesResult) :
    ℕ → ℕ → SpeciesResult × ℕ
  | attempt, 0 =>
      (⟨"unknown", "low", "Analysis failed after all retries", 1⟩, attempt)
  | attempt, remaining + 1 =>
      if isHttp then
        match call attempt with
        | .ok r => (r, attempt + 1)
        | .error e =>
            match remaining with
            | 0 => (⟨"unknown", "low", "Analysis failed: " ++ e, 1⟩, attempt + 1)
            | _ + 1 => identifyGo isHttp call (attempt + 1) remaining
      else
        (⟨"unknown", "low", "Image not accessible for analysis", 1⟩, attempt)

/-- `SpeciesAnalyzer._identify_species` on a capture. -/
def identifySpecies (c : CaptureRow)
    (call : ℕ → Except String SpeciesResult) (maxRetries : ℕ) :
    SpeciesResult × ℕ :=
  identifyGo c.imageUrlIsHttp call 0 maxRetries

/-- `SpeciesAnalyzer.analyze_visit` for one visit, abstracted over the
fetched capture rows and the classifier call; returns the terminal
write performed for the visit and the number of classifier call
attempts made.  (The empty-captures guard of the Python code coincides
with the `none` case of `selectBestCapture`, which is `none` exactly on
the empty list.) -/
def analyzeVisit (openaiConfigured : Bool) (captures : List CaptureRow)
    (call : ℕ → Except String SpeciesResult) (maxRetries : ℕ) :
    AnalyzerResult × ℕ :=
  match openaiConfigured with
  | false =>
      (.markVisitCompleted "unknown" none "OpenAI API not configured" 1, 0)
  | true =>
      match selectBestCapture captures with
      | none =>
          (.markVisitCompleted "unknown" none "No captures available" 1, 0)
      | some best =>
          let r := identifySpecies best call maxRetries
          (.markVisitCompleted r.1.species (some r.1.confidence)
            r.1.summary r.1.count, r.2)

/-- Whether a bbox of exactly four entries is ordered (x1 ≤ x2 and
y1 ≤ y2); other shapes are unconstrained since they contribute
nothing. -/
def bboxOrderedB : List ℚ → Bool
  | [x1, y1, x2, y2] => decide (x1 ≤ x2) && decide (y1 ≤ y2)
  | _ => true

/-- A well-formed detection per the data model: non-negative confidence
and an ordered bbox, as the detector produces them. -/
def WFDet (d : DetRow) : Prop :=
  0 ≤ d.confidence ∧ bboxOrderedB d.bbox = true

instance (d : DetRow) : Decidable (WFDet d) := by
  unfold WFDet
  infer_instance

lemma detContribution_nonneg {d : DetRow} (hwf : WFDet d) {a c : ℚ}
    (h : detContribution d = some (a, c)) : 0 ≤ a ∧ 0 ≤ c := by
  rcases d with ⟨bbox, conf⟩
  obtain ⟨hconf, hbox⟩ := hwf
  unfold detContribution at h
  unfold bboxOrderedB at hbox
  rcases bbox with _ | ⟨x1, bbox⟩
  · exact Option.noConfusion h
  rcases bbox with _ | ⟨y1, bbox⟩
  · exact Option.noConfusion h
  rcases bbox with _ | ⟨x2, bbox⟩
  · exact Option.noConfusion h
  rcases bbox with _ | ⟨y2, bbox⟩
  · exact Option.noConfusion h
  rcases bbox with _ | ⟨z, bbox⟩
  · simp only [Bool.and_eq_true, decide_eq_true_eq] at hbox
    obtain ⟨hx, hy⟩ := hbox
    have h2 : some ((x2 - x1) * (y2 - y1), conf) = some (a, c) := h
    injection h2 with h2
    have ha : (x2 - x1) * (y2 - y1) = a := congrArg Prod.fst h2
    have hc : conf = c := congrArg Prod.snd h2
    rw [← ha, ← hc]
    exact ⟨mul_nonneg (sub_nonneg.mpr hx) (sub_nonneg.mpr hy), hconf⟩
  · exact Option.noConfusion h

lemma detTotals_nonneg (dets : List DetRow) :
    ∀ acc : ℚ × ℚ, (∀ d ∈ dets, WFDet d) → 0 ≤ acc.1 → 0 ≤ acc.2 →
    0 ≤ (detTotals dets acc).1 ∧ 0 ≤ (detTotals dets acc).2 := by
  induction dets with
  | nil => intro acc _ h1 h2; exact ⟨h1, h2⟩
  | cons d rest ih =>
      intro acc hwf h1 h2
      unfold detTotals
      cases hc : detContribution d with
      | none =>
          exact ih acc (fun x hx => hwf x (List.mem_cons_of_mem d hx)) h1 h2
      | some p =>
          rcases p with ⟨a, c⟩
          obtain ⟨ha, hcn⟩ :=
            detContribution_nonneg (hwf d (List.mem_cons_self d rest)) hc
          exact ih (acc.1 + a, max acc.2 c)
            (fun x hx => hwf x (List.mem_cons_of_mem d hx))
            (add_nonneg h1 ha) (le_max_of_le_left h2)

lemma captureScore_nonneg {c : CaptureRow}
    (hwf : ∀ d ∈ c.detections, WFDet d) : 0 ≤ captureScore c := by
  obtain ⟨h1, h2⟩ := detTotals_nonneg c.detections (0, 0) hwf le_rfl le_rfl
  exact mul_nonneg h1 h2

lemma selectGo_spec (l : List CaptureRow) :
    ∀ (b0 : Option CaptureRow) (s0 : ℚ),
    (selectGo l (b0, s0) = (b0, s0) ∧ ∀ x ∈ l, captureScore x ≤ s0) ∨
    (∃ pre c post, l = pre ++ c :: post ∧
      selectGo l (b0, s0) = (some c, captureScore c) ∧
      s0 < captureScore c ∧
      (∀ x ∈ pre, captureScore x < captureScore c) ∧
      (∀ x ∈ post, captureScore x ≤ captureScore c)) := by
  induction l with
  | nil =>
      intro b0 s0
      exact Or.inl ⟨rfl, fun x hx => absurd hx (List.not_mem_nil x)⟩
  | cons c rest ih =>
      intro b0 s0
      unfold selectGo
      dsimp only
      by_cases hlt : s0 < captureScore c
      · rw [if_pos hlt]
        rcases ih (some c) (captureScore c) with ⟨heq, hall⟩ |
          ⟨pre, c2, post, hsplit, heq, hlt2, hpre, hpost⟩
        · refine Or.inr ⟨[], c, rest, rfl, heq, hlt, ?_, hall⟩
          intro x hx
          exact absurd hx (List.not_mem_nil x)
        · refine Or.inr ⟨c :: pre, c2, post, ?_, heq,
            lt_trans hlt hlt2, ?_, hpost⟩
          · rw [hsplit]
            rfl
          · intro x hx
            rcases List.mem_cons.mp hx with rfl | hx2
            · exact hlt2
            · exact hpre x hx2
      · rw [if_neg hlt]
        push_neg at hlt
        rcases ih b0 s0 with ⟨heq, hall⟩ |
          ⟨pre, c2, post, hsplit, heq, hlt2, hpre, hpost⟩
        · refine Or.inl ⟨heq, ?_⟩
          intro x hx
          rcases List.mem_cons.mp hx with rfl | hx2
          · exact hlt
          · exact hall x hx2
        · refine Or.inr ⟨c :: pre, c2, post, ?_, heq, hlt2, ?_, hpost⟩
          · rw [hsplit]
            rfl
          · intro x hx
            rcases List.mem_cons.mp hx with rfl | hx2
            · exact lt_of_le_of_lt hlt hlt2
            · exact hpre x hx2

lemma identifyGo_allFail (call : ℕ → Except String SpeciesResult)
    (e : ℕ → String) :
    ∀ (remaining attempt : ℕ), 1 ≤ remaining →
    (∀ i, attempt ≤ i → i < attempt + remaining → call i = .error (e i)) →
    identifyGo true call attempt remaining =
      (⟨"unknown", "low",
         "Analysis failed: " ++ e (attempt + remaining - 1), 1⟩,
       attempt + remaining) := by
  intro remaining
  induction remaining with
  | zero => intro attempt h; omega
  | succ r ih =>
      intro attempt _ hfail
      have hcall : call attempt = .error (e attempt) :=
        hfail attempt le_rfl (by omega)
      rcases r with _ | r2
      · unfold identifyGo
        rw [hcall]
        have hx : attempt + 1 - 1 = attempt := by omega
        rw [hx]
        rfl
      · unfold identifyGo
        rw [hcall]
        dsimp only
        rw [ih (attempt + 1) (by omega)
          (fun i h1 h2 => hfail i (by omega) (by omega))]
        have hx : attempt + 1 + (r2 + 1) - 1 = attempt + (r2 + 1 + 1) - 1 := by
          omega
        have hy : attempt + 1 + (r2 + 1) = attempt + (r2 + 1 + 1) := by omega
        rw [hx, hy]
        rfl

/-- C8: for a non-empty list of capture rows whose detections are
well-formed, `_select_best_capture` returns a capture maximizing
`total_area * max_confidence`, and among equal maximal scores the
earliest capture (every capture before the returned one scores strictly
lower). -/
theorem best_capture_maximal (captures : List CaptureRow)
    (hne : captures ≠ [])
    (hwf : ∀ c ∈ captures, ∀ d ∈ c.detections, WFDet d) :
    ∃ b pre post, selectBestCapture captures = some b ∧
      captures = pre ++ b :: post ∧
      (∀ x ∈ captures, captureScore x ≤ captureScore b) ∧
      (∀ x ∈ pre, captureScore x < captureScore b) := by
  rcases selectGo_spec captures none 0 with ⟨heq, hall⟩ |
    ⟨pre, c, post, hsplit, heq, _, hpre, hpost⟩
  · rcases captures with _ | ⟨c0, cs⟩
    · exact absurd rfl hne
    refine ⟨c0, [], cs, ?_, rfl, ?_, ?_⟩
    · unfold selectBestCapture
      rw [heq]
      rfl
    · intro x hx
      have hx0 : captureScore x ≤ 0 := hall x hx
      have h0 : 0 ≤ captureScore c0 :=
        captureScore_nonneg (hwf c0 (List.mem_cons_self c0 cs))
      exact le_trans hx0 h0
    · intro x hx
      exact absurd hx (List.not_mem_nil x)
  · refine ⟨c, pre, post, ?_, hsplit, ?_, hpre⟩
    · unfold selectBestCapture
      rw [heq]
    · intro x hx
      rw [hsplit] at hx
      rcases List.mem_append.mp hx with hx2 | hx3
      · exact le_of_lt (hpre x hx2)
      · rcases List.mem_cons.mp hx3 with rfl | hx4
        · exact le_rfl
        · exact hpost x hx4

/-- Two concrete capture rows: the first scores 4 * (1/2) = 2, the
second scores 1 * 1 = 1. -/
def capsW : List CaptureRow :=
  [⟨true, [⟨[0, 0, 2, 2], 1/2⟩]⟩, ⟨true, [⟨[0, 0, 1, 1], 1⟩]⟩]

/-- C8 witness: the selection policy instantiated on the concrete
two-capture list capsW. -/
lemma capsW_wf : ∀ c ∈ capsW, ∀ d ∈ c.detections, WFDet d := by
  intro c hc d hd
  rcases List.mem_cons.mp hc with rfl | hc2
  · rcases List.mem_cons.mp hd with rfl | hd2
    · constructor
      · norm_num
      · simp only [bboxOrderedB, Bool.and_eq_true, decide_eq_true_eq]
        norm_num
    · exact absurd hd2 (List.not_mem_nil d)
  · rcases List.mem_cons.mp hc2 with rfl | hc3
    · rcases List.mem_cons.mp hd with rfl | hd2
      · constructor
        · norm_num
        · simp only [bboxOrderedB, Bool.and_eq_true, decide_eq_true_eq]
          norm_num
      · exact absurd hd2 (List.not_mem_nil d)
    · exact absurd hc3 (List.not_mem_nil c)

theorem best_capture_maximal_witness :
    (capsW ≠ [] ∧ ∀ c ∈ capsW, ∀ d ∈ c.detections, WFDet d) ∧
    (∃ b pre post, selectBestCapture capsW = some b ∧
      capsW = pre ++ b :: post ∧
      (∀ x ∈ capsW, captureScore x ≤ captureScore b) ∧
      (∀ x ∈ pre, captureScore x < captureScore b)) :=
  ⟨⟨by simp [capsW], capsW_wf⟩,
   best_capture_maximal capsW (by simp [capsW]) capsW_wf⟩

/-- C1 (amended): when the classifier is configured and fails on every
one of the max-retries attempts, the worker makes exactly max-retries
call attempts and then marks the visit completed — species "unknown",
confidence "low", and the last error recorded in the summary field as
"Analysis failed: ..." — rather than marking it failed; the visit
record is not dropped. -/
theorem retry_exhaustion_marks_completed (captures : List CaptureRow)
    (best : CaptureRow) (call : ℕ → Except String SpeciesResult)
    (e : ℕ → String) (maxRetries : ℕ) (hmr : 1 ≤ maxRetries)
    (hsel : selectBestCapture captures = some best)
    (hhttp : best.imageUrlIsHttp = true)
    (hfail : ∀ i, i < maxRetries → call i = .error (e i)) :
    analyzeVisit true captures call maxRetries =
      (.markVisitCompleted "unknown" (some "low")
        ("Analysis failed: " ++ e (maxRetries - 1)) 1, maxRetries) ∧
    (analyzeVisit true captures call maxRetries).1.status = "completed" := by
  have hgo := identifyGo_allFail call e maxRetries 0 hmr
    (fun i h0 hi => hfail i (by omega))
  rw [Nat.zero_add] at hgo
  have hid : identifySpecies best call maxRetries =
      (⟨"unknown", "low", "Analysis failed: " ++ e (maxRetries - 1), 1⟩,
       maxRetries) := by
    unfold identifySpecies
    rw [hhttp, hgo]
  have h1 : analyzeVisit true captures call maxRetries =
      (.markVisitCompleted "unknown" (some "low")
        ("Analysis failed: " ++ e (maxRetries - 1)) 1, maxRetries) := by
    unfold analyzeVisit
    rw [hsel]
    dsimp only
    rw [hid]
  exact ⟨h1, by rw [h1]; rfl⟩

/-- C1 counterexample to the claim as stated: with max-retries 3 and a
classifier failing on every attempt, the visit is marked with status
"completed" (species "unknown", the error in the summary), not
"failed", after exactly 3 attempts. -/
lemma selectBest_singleton_empty :
    selectBestCapture [⟨true, ([] : List DetRow)⟩] = some ⟨true, []⟩ := by
  simp [selectBestCapture, selectGo, captureScore, detTotals]

theorem retry_exhaustion_status_not_failed :
    analyzeVisit true [⟨true, []⟩] (fun _ => Except.error "boom") 3 =
      (.markVisitCompleted "unknown" (some "low")
        "Analysis failed: boom" 1, 3) ∧
    (analyzeVisit true [⟨true, []⟩]
      (fun _ => Except.error "boom") 3).1.status ≠ "failed" := by
  have h1 : analyzeVisit true [⟨true, []⟩]
      (fun _ => Except.error "boom") 3 =
      (.markVisitCompleted "unknown" (some "low")
        "Analysis failed: boom" 1, 3) := by
    unfold analyzeVisit
    rw [selectBest_singleton_empty]
    dsimp only
    rfl
  refine ⟨h1, ?_⟩
  rw [h1]
  decide

/-- C1 witness: the amended statement instantiated at a concrete
one-capture visit and an always-failing classifier with max-retries
3. -/
theorem retry_exhaustion_witness :
    (1 ≤ 3 ∧
     selectBestCapture [⟨true, ([] : List DetRow)⟩] = some ⟨true, []⟩ ∧
     (⟨true, ([] : List DetRow)⟩ : CaptureRow).imageUrlIsHttp = true) ∧
    (analyzeVisit true [⟨true, []⟩] (fun _ => Except.error "boom") 3 =
      (.markVisitCompleted "unknown" (some "low")
        ("Analysis failed: " ++ "boom") 1, 3) ∧
     (analyzeVisit true [⟨true, []⟩]
       (fun _ => Except.error "boom") 3).1.status = "completed") :=
  ⟨⟨by decide, selectBest_singleton_empty, rfl⟩,
   retry_exhaustion_marks_completed [⟨true, []⟩] ⟨true, []⟩
     (fun _ => Except.error "boom") (fun _ => "boom") 3 (by decide)
     selectBest_singleton_empty rfl (fun i _ => rfl)⟩

/-- C7: if no classifier is configured, the worker immediately marks
every processed visit completed with species "unknown" (and the
not-configured note in the summary), making zero classifier calls; the
visit is never left in analyzing. -/
theorem no_classifier_marks_completed (captures : List CaptureRow)
    (call : ℕ → Except String SpeciesResult) (maxRetries : ℕ) :
    analyzeVisit false captures call maxRetries =
      (.markVisitCompleted "unknown" none "OpenAI API not configured" 1, 0) ∧
    (analyzeVisit false captures call maxRetries).1.status = "completed" :=
  ⟨rfl, rfl⟩

end Bird
